import Mathlib

/-
Shallow embedding of src/src/concurrency/two_phase_locking.cpp (namespace TinyDB),
the strict two-phase-locking transaction manager of YADB.

The embedding models a TwoPLContext as a record of the per-transaction state and
each TwoPLManager operation as a pure function from a context (plus a table model)
to a result code, the successor context, and a trace of the externally observable
calls the operation makes (lock manager calls, table accessor calls, action runs,
registry removal and context destruction).  Collaborators that live outside the
single source file (TransactionContext helpers, LockManager, the transaction map)
are modelled from the spec, as noted on each definition.
-/

namespace TinyDB

/-- Isolation levels, as in the source enum IsolationLevel. -/
inductive IsolationLevel
  | READ_UNCOMMITTED
  | READ_COMMITTED
  | REPEATABLE_READ
  | SERIALIZABLE
deriving DecidableEq, Repr

/-- Transaction states.  Modelled from the spec: the state attribute of a
Transaction Context is one of GROWING, SHRINKING, COMMITTED, ABORTED. -/
inductive TransactionState
  | GROWING
  | SHRINKING
  | COMMITTED
  | ABORTED
deriving DecidableEq, Repr

/-- RIDs are opaque 64-bit tuple locators; modelled as naturals. -/
abbrev RID := Nat

/-- Tuples are opaque to the transaction manager; modelled as naturals. -/
abbrev Tuple := Nat

/-- Abort/commit actions are opaque thunks in the source; the embedding gives each
one an identifier and records its execution in the event trace. -/
abbrev ActionId := Nat

/-- Externally observable calls made by the transaction manager, in order. -/
inductive Event
  | LockSharedCall (rid : RID)
  | UnlockCall (rid : RID)
  | GetTupleCall (rid : RID)
  | InsertTupleCall (t : Tuple)
  | SetCommittedEv
  | SetAbortedEv
  | RunAction (a : ActionId)
  | RemoveFromMap (txn : Nat)
  | DeleteContext (txn : Nat)
deriving DecidableEq, Repr

/-- Result codes.  OK and SKIP are the codes the source Read builds; the others
are modelled from the spec error kinds. -/
inductive ErrorCode
  | OK
  | SKIP
  | ABORTED
  | STORAGE_ERROR
  | STATE_VIOLATION
deriving DecidableEq, Repr

/-- Per-transaction context (TwoPLContext in the source): id, isolation level,
state, the two lock sets (unordered sets in C++, lists here with membership as
the set relation), and the two action queues in insertion order. -/
structure TwoPLContext where
  txn_id : Nat
  isolation_level : IsolationLevel
  state : TransactionState
  shared_lock_set : List RID
  exclusive_lock_set : List RID
  abort_action : List ActionId
  commit_action : List ActionId
deriving DecidableEq, Repr

namespace TwoPLContext

/-- Modelled from the spec: IsSharedLocked(rid) tests membership of rid in the
context's shared lock set. -/
def IsSharedLocked (c : TwoPLContext) (rid : RID) : Bool :=
  decide (rid ∈ c.shared_lock_set)

/-- Modelled from the spec: IsExclusiveLocked(rid) tests membership of rid in the
context's exclusive lock set. -/
def IsExclusiveLocked (c : TwoPLContext) (rid : RID) : Bool :=
  decide (rid ∈ c.exclusive_lock_set)

/-- Modelled from the spec: IsAborted() tests whether the state is ABORTED. -/
def IsAborted (c : TwoPLContext) : Bool :=
  c.state = TransactionState.ABORTED

/-- Modelled from the spec: SetCommitted() sets the state to COMMITTED. -/
def SetCommitted (c : TwoPLContext) : TwoPLContext :=
  { c with state := TransactionState.COMMITTED }

/-- Modelled from the spec: SetAborted() sets the state to ABORTED. -/
def SetAborted (c : TwoPLContext) : TwoPLContext :=
  { c with state := TransactionState.ABORTED }

end TwoPLContext

/-- Table model: a table maps a RID to the tuple stored there, if any.
GetTuple(rid, out) succeeds exactly when a tuple is present. -/
abbrev Table := RID → Option Tuple

namespace LockManager

/-- Modelled from the spec: LockShared(ctx, rid) on success adds rid to
ctx.shared_locks.  The embedding records the call and models the success path;
deadlock victimization is an external concurrent event outside this model. -/
def LockShared (c : TwoPLContext) (rid : RID) : TwoPLContext × List Event :=
  ({ c with shared_lock_set := c.shared_lock_set ++ [rid] },
   [Event.LockSharedCall rid])

/-- Modelled from the spec: Unlock(ctx, rid) releases whichever mode is held and
removes rid from the context's lock sets; it never fails for a held lock. -/
def Unlock (c : TwoPLContext) (rid : RID) : TwoPLContext × List Event :=
  ({ c with
      shared_lock_set := c.shared_lock_set.filter (fun r => r ≠ rid),
      exclusive_lock_set := c.exclusive_lock_set.filter (fun r => r ≠ rid) },
   [Event.UnlockCall rid])

end LockManager

namespace TwoPLManager

/-- Lock-acquisition phase of TwoPLManager::Read (source lines 25 to 29): unless
the isolation level is READ_UNCOMMITTED, and unless the context already holds an
S or X lock on the RID, request a shared lock from the lock manager. -/
def ReadAcquire (c : TwoPLContext) (rid : RID) : TwoPLContext × List Event :=
  if c.isolation_level ≠ IsolationLevel.READ_UNCOMMITTED ∧
     c.IsSharedLocked rid = false ∧
     c.IsExclusiveLocked rid = false then
    LockManager.LockShared c rid
  else
    (c, [])

/-- TwoPLManager::Read.  The TINYDB_ASSERT on IsAborted is modelled from the spec
as failing with STATE_VIOLATION before any other action.  Then: acquire the S
lock per the isolation matrix, fetch the tuple (SKIP on failure), and under
READ_COMMITTED release the S lock if one is held. -/
def Read (c : TwoPLContext) (table : Table) (rid : RID) :
    ErrorCode × TwoPLContext × List Event :=
  if c.IsAborted then
    (ErrorCode.STATE_VIOLATION, c, [])
  else
    let acq := ReadAcquire c rid
    let res := if (table rid).isNone then ErrorCode.SKIP else ErrorCode.OK
    let fin :=
      if acq.1.isolation_level = IsolationLevel.READ_COMMITTED ∧
         acq.1.IsSharedLocked rid = true then
        LockManager.Unlock acq.1 rid
      else
        (acq.1, [])
    (res, fin.1, acq.2 ++ [Event.GetTupleCall rid] ++ fin.2)

/-- TwoPLManager::Insert (source lines 50 to 54).  The body is a stub: it checks
the not-aborted precondition (modelled as STATE_VIOLATION) and does nothing
else: no InsertTuple call, no lock acquisition, no abort action. -/
def Insert (c : TwoPLContext) (tuple : Tuple) (table : Table) :
    ErrorCode × TwoPLContext × List Event :=
  if c.IsAborted then
    (ErrorCode.STATE_VIOLATION, c, [])
  else
    (ErrorCode.OK, c, [])

/-- TwoPLManager::Delete (source lines 56 to 58).  Stub, as Insert. -/
def Delete (c : TwoPLContext) (rid : RID) (table : Table) :
    ErrorCode × TwoPLContext × List Event :=
  if c.IsAborted then
    (ErrorCode.STATE_VIOLATION, c, [])
  else
    (ErrorCode.OK, c, [])

/-- TwoPLManager::Update (source lines 60 to 62).  Stub, as Insert. -/
def Update (c : TwoPLContext) (tuple : Tuple) (rid : RID) (table : Table) :
    ErrorCode × TwoPLContext × List Event :=
  if c.IsAborted then
    (ErrorCode.STATE_VIOLATION, c, [])
  else
    (ErrorCode.OK, c, [])

/-- The emplace step of the lock-set union in ReleaseAllLocks: add the RID unless
already present (std::unordered_set::emplace). -/
def emplace (s : List RID) (r : RID) : List RID :=
  if r ∈ s then s else s ++ [r]

/-- The deduplicated union of the exclusive and shared lock sets, exclusive
entries first, as built by the two loops of TwoPLManager::ReleaseAllLocks. -/
def unionLockSet (c : TwoPLContext) : List RID :=
  (c.exclusive_lock_set ++ c.shared_lock_set).foldl emplace []

/-- One iteration of the unlock loop of ReleaseAllLocks: unlock the RID on the
accumulated context and append the call to the accumulated trace. -/
def unlockStep (acc : TwoPLContext × List Event) (r : RID) : TwoPLContext × List Event :=
  let st := LockManager.Unlock acc.1 r
  (st.1, acc.2 ++ st.2)

/-- TwoPLManager::ReleaseAllLocks: union the two lock sets into one deduplicated
set, then issue Unlock for each RID in it. -/
def ReleaseAllLocks (c : TwoPLContext) : TwoPLContext × List Event :=
  (unionLockSet c).foldl unlockStep (c, [])

/-- TwoPLManager::Commit: set the state to COMMITTED, run the commit actions in
insertion order, release all locks, then remove the context from the transaction
map and destroy it. -/
def Commit (c : TwoPLContext) : TwoPLContext × List Event :=
  let c1 := c.SetCommitted
  let rel := ReleaseAllLocks c1
  (rel.1,
   Event.SetCommittedEv ::
     (c1.commit_action.map Event.RunAction ++ rel.2 ++
      [Event.RemoveFromMap c.txn_id, Event.DeleteContext c.txn_id]))

/-- TwoPLManager::Abort: set the state to ABORTED, run the abort actions in the
order the source loop visits them (insertion order), release all locks, then
remove the context from the transaction map and destroy it. -/
def Abort (c : TwoPLContext) : TwoPLContext × List Event :=
  let c1 := c.SetAborted
  let rel := ReleaseAllLocks c1
  (rel.1,
   Event.SetAbortedEv ::
     (c1.abort_action.map Event.RunAction ++ rel.2 ++
      [Event.RemoveFromMap c.txn_id, Event.DeleteContext c.txn_id]))

end TwoPLManager

section Lemmas

open TwoPLManager

/-- Membership in the result of a single emplace step. -/
theorem mem_emplace (s : List RID) (a r : RID) :
    r ∈ emplace s a ↔ r ∈ s ∨ r = a := by
  unfold emplace
  by_cases h : a ∈ s
  · simp only [if_pos h]
    constructor
    · exact fun hr => Or.inl hr
    · rintro (hr | rfl)
      · exact hr
      · exact h
  · simp [if_neg h]

/-- Membership in the folded union built by ReleaseAllLocks. -/
theorem mem_foldl_emplace (l : List RID) :
    ∀ (s : List RID) (r : RID), r ∈ l.foldl emplace s ↔ r ∈ s ∨ r ∈ l := by
  induction l with
  | nil => intro s r; simp
  | cons a t ih =>
      intro s r
      simp only [List.foldl_cons, ih, mem_emplace, List.mem_cons]
      tauto

/-- The emplace step preserves freedom from duplicates. -/
theorem nodup_emplace (s : List RID) (a : RID) (h : s.Nodup) :
    (emplace s a).Nodup := by
  unfold emplace
  by_cases ha : a ∈ s
  · simpa [if_pos ha] using h
  · simp [if_neg ha, List.nodup_append, h, ha]

/-- The folded union built by ReleaseAllLocks has no duplicates. -/
theorem nodup_foldl_emplace (l : List RID) :
    ∀ s : List RID, s.Nodup → (l.foldl emplace s).Nodup := by
  induction l with
  | nil => intro s h; simpa using h
  | cons a t ih => intro s h; exact ih _ (nodup_emplace s a h)

/-- Membership in the deduplicated union of the two lock sets. -/
theorem mem_unionLockSet (c : TwoPLContext) (r : RID) :
    r ∈ unionLockSet c ↔ r ∈ c.exclusive_lock_set ∨ r ∈ c.shared_lock_set := by
  unfold unionLockSet
  simp [mem_foldl_emplace]

/-- The deduplicated union of the two lock sets has no duplicates. -/
theorem nodup_unionLockSet (c : TwoPLContext) : (unionLockSet c).Nodup :=
  nodup_foldl_emplace _ _ List.nodup_nil

/-- The trace produced by the unlock loop is one Unlock call per visited RID. -/
theorem unlockFold_trace (u : List RID) :
    ∀ (c : TwoPLContext) (evs : List Event),
      (u.foldl unlockStep (c, evs)).2 = evs ++ u.map Event.UnlockCall := by
  induction u with
  | nil => intro c evs; simp
  | cons r t ih =>
      intro c evs
      simp [List.foldl_cons, unlockStep, LockManager.Unlock, ih]

/-- After the unlock loop visits a superset of both lock sets, both are empty. -/
theorem unlockFold_sets (u : List RID) :
    ∀ (c : TwoPLContext) (evs : List Event),
      (∀ x ∈ c.shared_lock_set, x ∈ u) →
      (∀ x ∈ c.exclusive_lock_set, x ∈ u) →
      (u.foldl unlockStep (c, evs)).1.shared_lock_set = [] ∧
      (u.foldl unlockStep (c, evs)).1.exclusive_lock_set = [] := by
  induction u with
  | nil =>
      intro c evs hs hx
      constructor
      · exact List.eq_nil_iff_forall_not_mem.mpr (fun x hmem => by
          simpa using hs x hmem)
      · exact List.eq_nil_iff_forall_not_mem.mpr (fun x hmem => by
          simpa using hx x hmem)
  | cons r t ih =>
      intro c evs hs hx
      simp only [List.foldl_cons]
      apply ih
      · intro x hmem
        simp only [unlockStep, LockManager.Unlock, List.mem_filter] at hmem
        have hx1 := hs x hmem.1
        have hne : x ≠ r := by simpa using hmem.2
        simpa [hne] using hx1
      · intro x hmem
        simp only [unlockStep, LockManager.Unlock, List.mem_filter] at hmem
        have hx1 := hx x hmem.1
        have hne : x ≠ r := by simpa using hmem.2
        simpa [hne] using hx1

/-- The trace of ReleaseAllLocks is exactly one Unlock call per RID of the
deduplicated union of the two lock sets. -/
theorem releaseAllLocks_trace (c : TwoPLContext) :
    (ReleaseAllLocks c).2 = (unionLockSet c).map Event.UnlockCall := by
  unfold ReleaseAllLocks
  simpa using unlockFold_trace (unionLockSet c) c []

/-- After ReleaseAllLocks both lock sets of the context are empty. -/
theorem releaseAllLocks_sets (c : TwoPLContext) :
    (ReleaseAllLocks c).1.shared_lock_set = [] ∧
    (ReleaseAllLocks c).1.exclusive_lock_set = [] := by
  unfold ReleaseAllLocks
  apply unlockFold_sets
  · intro x hmem
    exact (mem_unionLockSet c x).mpr (Or.inr hmem)
  · intro x hmem
    exact (mem_unionLockSet c x).mpr (Or.inl hmem)

end Lemmas

section ConcreteInputs

/-- Table model in which every RID holds a tuple. -/
def tableFull : Table := fun _ => some 0

/-- Table model in which no RID holds a tuple. -/
def tableEmpty : Table := fun _ => none

/-- Live REPEATABLE_READ context with two recorded abort actions 1 and 2,
action 1 appended first. -/
def ctxTwoAborts : TwoPLContext :=
  { txn_id := 7, isolation_level := IsolationLevel.REPEATABLE_READ,
    state := TransactionState.GROWING, shared_lock_set := [],
    exclusive_lock_set := [], abort_action := [1, 2], commit_action := [] }

/-- Live context with one recorded abort action 5 and one shared lock. -/
def ctxOneAbort : TwoPLContext :=
  { txn_id := 11, isolation_level := IsolationLevel.REPEATABLE_READ,
    state := TransactionState.GROWING, shared_lock_set := [3],
    exclusive_lock_set := [], abort_action := [5], commit_action := [] }

/-- Context already in the COMMITTED state, READ_COMMITTED level, no locks. -/
def ctxCommitted : TwoPLContext :=
  { txn_id := 1, isolation_level := IsolationLevel.READ_COMMITTED,
    state := TransactionState.COMMITTED, shared_lock_set := [],
    exclusive_lock_set := [], abort_action := [], commit_action := [] }

/-- Context already in the ABORTED state. -/
def ctxAborted : TwoPLContext :=
  { txn_id := 2, isolation_level := IsolationLevel.READ_COMMITTED,
    state := TransactionState.ABORTED, shared_lock_set := [],
    exclusive_lock_set := [], abort_action := [], commit_action := [] }

/-- Live context with no locks and no recorded actions. -/
def ctxLive : TwoPLContext :=
  { txn_id := 3, isolation_level := IsolationLevel.REPEATABLE_READ,
    state := TransactionState.GROWING, shared_lock_set := [],
    exclusive_lock_set := [], abort_action := [], commit_action := [] }

/-- Live READ_COMMITTED context already holding a shared lock on RID 4. -/
def ctxSharedRC : TwoPLContext :=
  { txn_id := 4, isolation_level := IsolationLevel.READ_COMMITTED,
    state := TransactionState.GROWING, shared_lock_set := [4],
    exclusive_lock_set := [], abort_action := [], commit_action := [] }

/-- Live READ_COMMITTED context holding an exclusive lock on RID 6. -/
def ctxExclusiveRC : TwoPLContext :=
  { txn_id := 5, isolation_level := IsolationLevel.READ_COMMITTED,
    state := TransactionState.GROWING, shared_lock_set := [],
    exclusive_lock_set := [6], abort_action := [], commit_action := [] }

/-- Selector for action-run events in a trace. -/
def runActionEvents (evs : List Event) : List Event :=
  evs.filter fun e =>
    match e with
    | Event.RunAction _ => true
    | _ => false

end ConcreteInputs

open TwoPLManager

/-- Claim C1 (divergence): on a context whose abort_actions were appended as
a1 = 1 then a2 = 2, Abort runs action 1 first and action 2 last, i.e. in
insertion (FIFO) order, not in the reverse (LIFO) order the claim states. -/
theorem claim_C1_divergence :
    runActionEvents (Abort ctxTwoAborts).2 =
      [Event.RunAction 1, Event.RunAction 2] ∧
    runActionEvents (Abort ctxTwoAborts).2 ≠
      (ctxTwoAborts.abort_action.reverse.map Event.RunAction) := by
  constructor
  · rfl
  · decide

/-- Claim C3 (divergence): after a first Abort has set the context to ABORTED,
a second Abort on the resulting context is not a no-op: it runs the recorded
abort action 5 again and repeats the removal from the transaction map and the
destruction of the context. -/
theorem claim_C3_divergence :
    (Abort (Abort ctxOneAbort).1).2 ≠ [] ∧
    Event.RunAction 5 ∈ (Abort (Abort ctxOneAbort).1).2 ∧
    Event.RemoveFromMap 11 ∈ (Abort (Abort ctxOneAbort).1).2 ∧
    Event.DeleteContext 11 ∈ (Abort (Abort ctxOneAbort).1).2 := by
  refine ⟨?_, ?_, ?_, ?_⟩ <;> decide

/-- Claim C2 (counterexample): on a context whose state is COMMITTED, Read does
not fail with STATE_VIOLATION; it requests a shared lock and performs the
storage fetch, because the precondition check only tests for ABORTED. -/
theorem claim_C2_counterexample :
    (Read ctxCommitted tableFull 0).1 ≠ ErrorCode.STATE_VIOLATION ∧
    Event.LockSharedCall 0 ∈ (Read ctxCommitted tableFull 0).2.2 ∧
    Event.GetTupleCall 0 ∈ (Read ctxCommitted tableFull 0).2.2 := by
  refine ⟨?_, ?_, ?_⟩ <;> decide

/-- Claim C2 (amended): for every data operation (Read, Insert, Update,
Delete), if the context's state is ABORTED at entry, the call performs no lock
or storage action and fails with STATE_VIOLATION; a COMMITTED state is not
checked and does not short-circuit the operation. -/
theorem claim_C2_aborted_reject (c : TwoPLContext) (table : Table) (rid : RID)
    (t : Tuple) (h : c.state = TransactionState.ABORTED) :
    Read c table rid = (ErrorCode.STATE_VIOLATION, c, []) ∧
    Insert c t table = (ErrorCode.STATE_VIOLATION, c, []) ∧
    Update c t rid table = (ErrorCode.STATE_VIOLATION, c, []) ∧
    Delete c rid table = (ErrorCode.STATE_VIOLATION, c, []) := by
  have hA : c.IsAborted = true := by
    simp [TwoPLContext.IsAborted, h]
  refine ⟨?_, ?_, ?_, ?_⟩ <;>
    simp [TwoPLManager.Read, TwoPLManager.Insert, TwoPLManager.Update,
      TwoPLManager.Delete, hA]

/-- Claim C2 (witness): the amended statement applied to a concrete ABORTED
context. -/
theorem claim_C2_aborted_reject_witness :
    ctxAborted.state = TransactionState.ABORTED ∧
    (Read ctxAborted tableFull 0 = (ErrorCode.STATE_VIOLATION, ctxAborted, []) ∧
     Insert ctxAborted 0 tableFull = (ErrorCode.STATE_VIOLATION, ctxAborted, []) ∧
     Update ctxAborted 0 0 tableFull = (ErrorCode.STATE_VIOLATION, ctxAborted, []) ∧
     Delete ctxAborted 0 tableFull = (ErrorCode.STATE_VIOLATION, ctxAborted, [])) :=
  ⟨rfl, claim_C2_aborted_reject ctxAborted tableFull 0 0 rfl⟩

/-- Claim C4 (counterexample): on a live context, Insert makes no storage call,
acquires no lock, and appends no abort action: the observable trace is empty
and the abort-action queue is unchanged. -/
theorem claim_C4_counterexample :
    (Insert ctxLive 5 tableFull).2.2 = [] ∧
    (Insert ctxLive 5 tableFull).2.1.abort_action = ctxLive.abort_action ∧
    (Insert ctxLive 5 tableFull).2.1.exclusive_lock_set =
      ctxLive.exclusive_lock_set := by
  refine ⟨?_, ?_, ?_⟩ <;> decide

/-- Claim C4 (amended): Insert on a live context checks the not-aborted
precondition and otherwise does nothing: the body is an unimplemented stub, so
no InsertTuple call is made, no X lock is acquired, and no abort action is
appended. -/
theorem claim_C4_insert_stub (c : TwoPLContext) (t : Tuple) (table : Table)
    (h : c.IsAborted = false) :
    Insert c t table = (ErrorCode.OK, c, []) := by
  simp [TwoPLManager.Insert, h]

/-- Claim C4 (witness): the amended statement applied to a concrete live
context. -/
theorem claim_C4_insert_stub_witness :
    ctxLive.IsAborted = false ∧
    Insert ctxLive 5 tableFull = (ErrorCode.OK, ctxLive, []) :=
  ⟨by decide, claim_C4_insert_stub ctxLive 5 tableFull (by decide)⟩

/-- The lock-acquisition phase of Read does not change the isolation level. -/
theorem readAcquire_isolation (c : TwoPLContext) (rid : RID) :
    (ReadAcquire c rid).1.isolation_level = c.isolation_level := by
  unfold ReadAcquire
  split <;> rfl

/-- The lock-acquisition phase of Read does not change the state. -/
theorem readAcquire_state (c : TwoPLContext) (rid : RID) :
    (ReadAcquire c rid).1.state = c.state := by
  unfold ReadAcquire
  split <;> rfl

/-- The lock-acquisition phase of Read does not change the exclusive set. -/
theorem readAcquire_exclusive (c : TwoPLContext) (rid : RID) :
    (ReadAcquire c rid).1.exclusive_lock_set = c.exclusive_lock_set := by
  unfold ReadAcquire
  split <;> rfl

/-- The trace of the lock-acquisition phase of Read is a single shared-lock
request exactly when the acquisition condition holds. -/
theorem readAcquire_trace (c : TwoPLContext) (rid : RID) :
    (ReadAcquire c rid).2 =
      if c.isolation_level ≠ IsolationLevel.READ_UNCOMMITTED ∧
         c.IsSharedLocked rid = false ∧
         c.IsExclusiveLocked rid = false then
        [Event.LockSharedCall rid]
      else [] := by
  unfold ReadAcquire
  split <;> simp_all [LockManager.LockShared]

/-- Read on a live context, written as its three components: the result code,
the final context, and the trace of acquisition, fetch and conditional
release. -/
theorem read_unfold (c : TwoPLContext) (table : Table) (rid : RID)
    (h : c.IsAborted = false) :
    Read c table rid =
      ((if (table rid).isNone then ErrorCode.SKIP else ErrorCode.OK),
       (if (ReadAcquire c rid).1.isolation_level = IsolationLevel.READ_COMMITTED ∧
           (ReadAcquire c rid).1.IsSharedLocked rid = true then
          (LockManager.Unlock (ReadAcquire c rid).1 rid).1
        else (ReadAcquire c rid).1),
       (ReadAcquire c rid).2 ++ [Event.GetTupleCall rid] ++
       (if (ReadAcquire c rid).1.isolation_level = IsolationLevel.READ_COMMITTED ∧
           (ReadAcquire c rid).1.IsSharedLocked rid = true then
          [Event.UnlockCall rid]
        else [])) := by
  by_cases hfin : (ReadAcquire c rid).1.isolation_level =
        IsolationLevel.READ_COMMITTED ∧
      (ReadAcquire c rid).1.IsSharedLocked rid = true
  · simp [Read, h, hfin, LockManager.Unlock]
  · simp [Read, h, hfin]

/-- Claim C5: if the isolation level is READ_COMMITTED and a shared lock on the
RID is held after the fetch (i.e. on the context produced by the acquisition
phase), Read releases that S lock before returning; under REPEATABLE_READ and
SERIALIZABLE, Read issues no Unlock call at all. -/
theorem claim_C5_read_release (c : TwoPLContext) (table : Table) (rid : RID)
    (h : c.IsAborted = false) :
    (c.isolation_level = IsolationLevel.READ_COMMITTED →
      (ReadAcquire c rid).1.IsSharedLocked rid = true →
      ((Read c table rid).2.1.IsSharedLocked rid = false ∧
       Event.UnlockCall rid ∈ (Read c table rid).2.2)) ∧
    ((c.isolation_level = IsolationLevel.REPEATABLE_READ ∨
      c.isolation_level = IsolationLevel.SERIALIZABLE) →
      ∀ r : RID, Event.UnlockCall r ∉ (Read c table rid).2.2) := by
  constructor
  · intro hRC hS
    have hiso : (ReadAcquire c rid).1.isolation_level =
        IsolationLevel.READ_COMMITTED := by
      rw [readAcquire_isolation]; exact hRC
    have hSmem : rid ∈ (ReadAcquire c rid).1.shared_lock_set := by
      simpa [TwoPLContext.IsSharedLocked] using hS
    rw [read_unfold c table rid h]
    simp [hiso, hS, hSmem, LockManager.Unlock, TwoPLContext.IsSharedLocked,
      List.mem_filter]
  · intro hlvl r
    have hiso := readAcquire_isolation c rid
    have hfin : ¬((ReadAcquire c rid).1.isolation_level =
          IsolationLevel.READ_COMMITTED ∧
        (ReadAcquire c rid).1.IsSharedLocked rid = true) := by
      rcases hlvl with h1 | h1 <;> simp [hiso, h1]
    rw [read_unfold c table rid h, readAcquire_trace]
    by_cases hacq : c.isolation_level ≠ IsolationLevel.READ_UNCOMMITTED ∧
        c.IsSharedLocked rid = false ∧ c.IsExclusiveLocked rid = false <;>
      simp [hfin, hacq]

/-- Claim C5 (witness): a READ_COMMITTED context holding a shared lock on RID 4
releases it during Read. -/
theorem claim_C5_read_release_witness :
    ctxSharedRC.IsAborted = false ∧
    ctxSharedRC.isolation_level = IsolationLevel.READ_COMMITTED ∧
    (ReadAcquire ctxSharedRC 4).1.IsSharedLocked 4 = true ∧
    ((Read ctxSharedRC tableFull 4).2.1.IsSharedLocked 4 = false ∧
     Event.UnlockCall 4 ∈ (Read ctxSharedRC tableFull 4).2.2) :=
  ⟨by decide, rfl, by decide,
   (claim_C5_read_release ctxSharedRC tableFull 4 (by decide)).1 rfl (by decide)⟩

/-- Claim C6: under READ_UNCOMMITTED, Read never requests a shared lock; under
every other isolation level, Read requests a shared lock on the RID exactly
when the context holds neither an S nor an X lock on it. -/
theorem claim_C6_read_acquire (c : TwoPLContext) (table : Table) (rid : RID)
    (h : c.IsAborted = false) :
    (c.isolation_level = IsolationLevel.READ_UNCOMMITTED →
      ∀ r : RID, Event.LockSharedCall r ∉ (Read c table rid).2.2) ∧
    (c.isolation_level ≠ IsolationLevel.READ_UNCOMMITTED →
      (Event.LockSharedCall rid ∈ (Read c table rid).2.2 ↔
        (c.IsSharedLocked rid = false ∧ c.IsExclusiveLocked rid = false))) := by
  constructor
  · intro hRU r
    have hacqEq : ReadAcquire c rid = (c, []) := by
      simp [ReadAcquire, hRU]
    rw [read_unfold c table rid h, hacqEq]
    simp [hRU]
  · intro hNRU
    by_cases hS : c.IsSharedLocked rid = false
    · by_cases hX : c.IsExclusiveLocked rid = false
      · have hacqTr : (ReadAcquire c rid).2 = [Event.LockSharedCall rid] := by
          simp [ReadAcquire, hNRU, hS, hX, LockManager.LockShared]
        rw [read_unfold c table rid h, hacqTr]
        simp [hS, hX]
      · have hX' : c.IsExclusiveLocked rid = true := by
          simpa using hX
        have hacqEq : ReadAcquire c rid = (c, []) := by
          simp [ReadAcquire, hX']
        rw [read_unfold c table rid h, hacqEq]
        simp [hS, hX']
    · have hS' : c.IsSharedLocked rid = true := by
        simpa using hS
      have hacqEq : ReadAcquire c rid = (c, []) := by
        simp [ReadAcquire, hS']
      rw [read_unfold c table rid h, hacqEq]
      by_cases hRC : c.isolation_level = IsolationLevel.READ_COMMITTED <;>
        simp [hRC, hS']

/-- Claim C6 (witness): a REPEATABLE_READ context holding no lock on RID 2
requests a shared lock during Read. -/
theorem claim_C6_read_acquire_witness :
    ctxLive.IsAborted = false ∧
    ctxLive.isolation_level ≠ IsolationLevel.READ_UNCOMMITTED ∧
    (Event.LockSharedCall 2 ∈ (Read ctxLive tableFull 2).2.2 ↔
      (ctxLive.IsSharedLocked 2 = false ∧ ctxLive.IsExclusiveLocked 2 = false)) :=
  ⟨by decide, by decide,
   (claim_C6_read_acquire ctxLive tableFull 2 (by decide)).2 (by decide)⟩

/-- Claim C9: when the table fetch fails during Read on a live context, Read
returns SKIP, leaves the transaction state unchanged, and the context is not
aborted, so it remains usable for further operations. -/
theorem claim_C9_skip (c : TwoPLContext) (table : Table) (rid : RID)
    (h : c.IsAborted = false) (hmiss : table rid = none) :
    (Read c table rid).1 = ErrorCode.SKIP ∧
    (Read c table rid).2.1.state = c.state ∧
    (Read c table rid).2.1.IsAborted = false := by
  have hstate : (Read c table rid).2.1.state = c.state := by
    simp only [Read, h, Bool.false_eq_true, if_false]
    have hunlock : ∀ d : TwoPLContext,
        (LockManager.Unlock d rid).1.state = d.state := fun d => rfl
    split
    · rw [hunlock, readAcquire_state]
    · rw [readAcquire_state]
  refine ⟨?_, hstate, ?_⟩
  · simp [Read, h, hmiss]
  · have : (Read c table rid).2.1.IsAborted =
        decide ((Read c table rid).2.1.state = TransactionState.ABORTED) := rfl
    rw [this, hstate]
    exact h

/-- Claim C9 (witness): Read of RID 3 on a live context over an empty table
returns SKIP and leaves the context live. -/
theorem claim_C9_skip_witness :
    ctxLive.IsAborted = false ∧
    tableEmpty 3 = none ∧
    ((Read ctxLive tableEmpty 3).1 = ErrorCode.SKIP ∧
     (Read ctxLive tableEmpty 3).2.1.state = ctxLive.state ∧
     (Read ctxLive tableEmpty 3).2.1.IsAborted = false) :=
  ⟨by decide, rfl, claim_C9_skip ctxLive tableEmpty 3 (by decide) rfl⟩

/-- Claim C10: on a context holding an exclusive lock on the RID (and, per the
lock-set disjointness invariant, no shared lock on it), Read at any isolation
level makes no Unlock call for that RID and leaves the X lock held. -/
theorem claim_C10_no_x_release (c : TwoPLContext) (table : Table) (rid : RID)
    (h : c.IsAborted = false)
    (hx : c.IsExclusiveLocked rid = true)
    (hs : c.IsSharedLocked rid = false) :
    (Read c table rid).2.1.IsExclusiveLocked rid = true ∧
    Event.UnlockCall rid ∉ (Read c table rid).2.2 := by
  have hacq : ReadAcquire c rid = (c, []) := by
    simp [ReadAcquire, hx]
  simp [Read, h, hacq, hs, hx]

/-- Claim C10 (witness): a READ_COMMITTED context holding an X lock on RID 6
keeps it across a Read of RID 6 and issues no Unlock call. -/
theorem claim_C10_no_x_release_witness :
    ctxExclusiveRC.IsAborted = false ∧
    ctxExclusiveRC.IsExclusiveLocked 6 = true ∧
    ctxExclusiveRC.IsSharedLocked 6 = false ∧
    ((Read ctxExclusiveRC tableFull 6).2.1.IsExclusiveLocked 6 = true ∧
     Event.UnlockCall 6 ∉ (Read ctxExclusiveRC tableFull 6).2.2) :=
  ⟨by decide, by decide, by decide,
   claim_C10_no_x_release ctxExclusiveRC tableFull 6 (by decide) (by decide)
     (by decide)⟩

/-- Setting the state to COMMITTED changes no other field, so the lock-set
union of the updated context is that of the original. -/
theorem unionLockSet_setCommitted (c : TwoPLContext) :
    unionLockSet c.SetCommitted = unionLockSet c := rfl

/-- Setting the state to ABORTED changes no other field, so the lock-set union
of the updated context is that of the original. -/
theorem unionLockSet_setAborted (c : TwoPLContext) :
    unionLockSet c.SetAborted = unionLockSet c := rfl

/-- Claim C7: in both Commit and Abort, the trace opens with the state
transition, then runs exactly the registered actions (commit actions in
insertion order), then the lock releases, and ends with deregistration and
destruction of the context. -/
theorem claim_C7_finalization_order (c : TwoPLContext) :
    ∃ unlockEvents : List Event,
      (∀ e ∈ unlockEvents, ∃ r : RID, e = Event.UnlockCall r) ∧
      (Commit c).2 =
        Event.SetCommittedEv ::
          (c.commit_action.map Event.RunAction ++ unlockEvents ++
           [Event.RemoveFromMap c.txn_id, Event.DeleteContext c.txn_id]) ∧
      (Abort c).2 =
        Event.SetAbortedEv ::
          (c.abort_action.map Event.RunAction ++ unlockEvents ++
           [Event.RemoveFromMap c.txn_id, Event.DeleteContext c.txn_id]) := by
  refine ⟨(unionLockSet c).map Event.UnlockCall, ?_, ?_, ?_⟩
  · intro e he
    rcases List.mem_map.mp he with ⟨r, _, rfl⟩
    exact ⟨r, rfl⟩
  · show (Commit c).2 = _
    rw [Commit]
    rw [releaseAllLocks_trace, unionLockSet_setCommitted]
    rfl
  · show (Abort c).2 = _
    rw [Abort]
    rw [releaseAllLocks_trace, unionLockSet_setAborted]
    rfl

/-- One Event.RunAction event is never an Event.UnlockCall, so a trace segment
of action runs contains no unlock calls. -/
theorem count_unlock_map_runAction (l : List ActionId) (r : RID) :
    (l.map Event.RunAction).count (Event.UnlockCall r) = 0 := by
  rw [List.count_eq_zero]
  intro hmem
  rcases List.mem_map.mp hmem with ⟨a, _, heq⟩
  simp at heq

/-- Counting an unlock call in a trace of unlock calls counts the RID. -/
theorem count_unlock_map_unlock (u : List RID) (r : RID) :
    (u.map Event.UnlockCall).count (Event.UnlockCall r) = u.count r := by
  apply List.count_map_of_injective
  intro a b hab
  injection hab

/-- A RID of the lock sets is counted once in the deduplicated union,
any other RID zero times. -/
theorem count_unionLockSet (c : TwoPLContext) (r : RID) :
    (unionLockSet c).count r =
      if r ∈ c.exclusive_lock_set ∨ r ∈ c.shared_lock_set then 1 else 0 := by
  by_cases hmem : r ∈ c.exclusive_lock_set ∨ r ∈ c.shared_lock_set
  · rw [if_pos hmem]
    exact List.count_eq_one_of_mem (nodup_unionLockSet c)
      ((mem_unionLockSet c r).mpr hmem)
  · rw [if_neg hmem]
    exact List.count_eq_zero_of_not_mem
      (fun hin => hmem ((mem_unionLockSet c r).mp hin))

/-- Claim C8: Commit and Abort drain all locks: the final context holds no
shared and no exclusive lock, and the trace carries exactly one Unlock call
for each RID in the union of the two lock sets (none for any other RID),
even if a RID appears in both sets. -/
theorem claim_C8_lock_drain (c : TwoPLContext) :
    (Commit c).1.shared_lock_set = [] ∧
    (Commit c).1.exclusive_lock_set = [] ∧
    (Abort c).1.shared_lock_set = [] ∧
    (Abort c).1.exclusive_lock_set = [] ∧
    (∀ r : RID,
      (Commit c).2.count (Event.UnlockCall r) =
        if r ∈ c.exclusive_lock_set ∨ r ∈ c.shared_lock_set then 1 else 0) ∧
    (∀ r : RID,
      (Abort c).2.count (Event.UnlockCall r) =
        if r ∈ c.exclusive_lock_set ∨ r ∈ c.shared_lock_set then 1 else 0) := by
  have hcsets := releaseAllLocks_sets c.SetCommitted
  have hasets := releaseAllLocks_sets c.SetAborted
  refine ⟨hcsets.1, hcsets.2, hasets.1, hasets.2, ?_, ?_⟩
  · intro r
    show (Event.SetCommittedEv ::
        (c.commit_action.map Event.RunAction ++ (ReleaseAllLocks c.SetCommitted).2 ++
         [Event.RemoveFromMap c.txn_id, Event.DeleteContext c.txn_id])).count
        (Event.UnlockCall r) = _
    rw [releaseAllLocks_trace, unionLockSet_setCommitted]
    rw [List.count_cons_of_ne (by simp)]
    rw [List.count_append, List.count_append]
    rw [count_unlock_map_runAction, count_unlock_map_unlock, count_unionLockSet]
    simp
  · intro r
    show (Event.SetAbortedEv ::
        (c.abort_action.map Event.RunAction ++ (ReleaseAllLocks c.SetAborted).2 ++
         [Event.RemoveFromMap c.txn_id, Event.DeleteContext c.txn_id])).count
        (Event.UnlockCall r) = _
    rw [releaseAllLocks_trace, unionLockSet_setAborted]
    rw [List.count_cons_of_ne (by simp)]
    rw [List.count_append, List.count_append]
    rw [count_unlock_map_runAction, count_unlock_map_unlock, count_unionLockSet]
    simp

end TinyDB
